import Mathlib

/-!
Shallow embedding of `main.py` (scheduled activity simulator).

Randomness (`random.randint`, `random.uniform`) is modelled by oracle
functions supplied as arguments; a well-formedness hypothesis states that a
draw in `[a, b]` lies in that interval.  The actuator (`pyautogui`) and the
logger are modelled by an event trace: each actuator call and each log line
becomes one `Event`.  The process-wide `_running` flag is modelled as a
stream of boolean reads `flag : Nat -> Bool` consumed one index per read
(`_running` in the source is read by the outer `while` and by the two
polling sleep loops).  Actuator failures are modelled by boolean outcome
oracles; a failing call still appears in the trace (the call was issued)
and raises, which the source catches where it catches.
-/

namespace Spam

/-- Default configuration constants from the top of `main.py`. -/
def INTERVAL_MIN : ℚ := 3

def JITTER : ℚ := 15/100

def MOVES_MIN : ℤ := 1

def MOVES_MAX : ℤ := 2

def PER_MOVE_DELAY : ℚ := 1

def PRESS_EACH : Bool := false

def KEY : String := "shift"

def MOVE_DURATION_LO : ℚ := 8/100

def MOVE_DURATION_HI : ℚ := 1/2

def MARGIN : ℤ := 5

def DRY_RUN : Bool := false

/-- Embeds `choose_moves_count` from `main.py`: if `min_moves == max_moves` return
`min_moves` without drawing, otherwise return `random.randint(min_moves,
max_moves)` (modelled by the `randint` oracle argument). -/
def choose_moves_count (randint : ℤ → ℤ → ℤ) (min_moves max_moves : ℤ) : ℤ :=
  if min_moves = max_moves then min_moves else randint min_moves max_moves

/-- Embeds `compute_next_wait_seconds` from `main.py`:
`j = random.uniform(-jitter, jitter) if jitter > 0 else 0.0;
 secs = max(0.1, (base_min * 60.0) * (1.0 + j))`. -/
def compute_next_wait_seconds (uniform : ℚ → ℚ → ℚ) (base_min jitter : ℚ) : ℚ :=
  let j := if jitter > 0 then uniform (-jitter) jitter else 0
  max (1/10) ((base_min * 60) * (1 + j))

/-- Embeds `random_position` from `main.py`: `w, h = pyautogui.size()`;
`x = random.randint(margin, max(margin, w - margin - 1))` and likewise for
`y`.  The screen size is passed in (the trace-level embedding records the
`screenSize` actuator call); the two `randint` draws are the oracles
`rx`, `ry`. -/
def random_position (size : ℤ × ℤ) (rx ry : ℤ → ℤ → ℤ) (margin : ℤ) : ℤ × ℤ :=
  (rx margin (max margin (size.1 - margin - 1)),
   ry margin (max margin (size.2 - margin - 1)))

/-- Line 180 of `main.py`:
`press_each = args.press_each if args.press_each else (False if args.press_once else PRESS_EACH)`. -/
def effective_press_each (cli_press_each cli_press_once : Bool) : Bool :=
  if cli_press_each then cli_press_each
  else if cli_press_once then false else PRESS_EACH

/-- Calls issued against the pyautogui actuator. -/
inductive ActCall where
  | screenSize : ActCall
  | moveTo : ℤ → ℤ → ℚ → ActCall
  | press : String → ActCall
deriving DecidableEq

/-- One log line per significant event, mirroring the `logging` calls in
`run_loop` and `main`. -/
inductive LogMsg where
  | starting : LogMsg
  | cycleStart : ℤ → LogMsg
  | dryMove : ℕ → ℤ → ℤ → ℚ → LogMsg
  | moved : ℕ → ℤ → ℤ → ℚ → LogMsg
  | moveWarn : LogMsg
  | dryPressEach : String → ℕ → LogMsg
  | pressedEach : String → ℕ → LogMsg
  | dryPressSeq : String → LogMsg
  | pressedSeq : String → LogMsg
  | pressWarn : String → LogMsg
  | nextWait : ℚ → LogMsg
  | fatal : String → LogMsg
  | exited : LogMsg
deriving DecidableEq

/-- Observable events of a run: a read of the `_running` flag (with its
index in the read stream and the value read), an actuator call, a log line. -/
inductive Event where
  | flagRead : ℕ → Bool → Event
  | call : ActCall → Event
  | log : LogMsg → Event
deriving DecidableEq

/-- An actuation call: `moveTo` or `press` (not the `screenSize` query). -/
def Event.isActuation : Event → Bool
  | .call (.moveTo _ _ _) => true
  | .call (.press _) => true
  | _ => false

/-- A `screenSize` query of the actuator. -/
def Event.isScreenQuery : Event → Bool
  | .call .screenSize => true
  | _ => false

/-- A pointer-move action: a real `moveTo` call or its dry-run log line. -/
def Event.isMoveAction : Event → Bool
  | .call (.moveTo _ _ _) => true
  | .log (.dryMove _ _ _ _) => true
  | _ => false

/-- A key-press action: a real `press` call or a dry-run press log line. -/
def Event.isPressAction : Event → Bool
  | .call (.press _) => true
  | .log (.dryPressEach _ _) => true
  | .log (.dryPressSeq _) => true
  | _ => false

/-- A marker of the once-per-cycle (sequence) press, dry or real. -/
def Event.isSeqPressMark : Event → Bool
  | .log (.pressedSeq _) => true
  | .log (.dryPressSeq _) => true
  | _ => false

/-- The dry-run move log line. -/
def Event.isDryMoveLog : Event → Bool
  | .log (.dryMove _ _ _ _) => true
  | _ => false

/-- A dry-run press log line (per-move or per-sequence). -/
def Event.isDryPressLog : Event → Bool
  | .log (.dryPressEach _ _) => true
  | .log (.dryPressSeq _) => true
  | _ => false

/-- The `Pressed '<key>' after sequence` success log line. -/
def Event.isPressedSeqLog : Event → Bool
  | .log (.pressedSeq _) => true
  | _ => false

/-- The `Pressed '<key>' after move` success log line. -/
def Event.isPressedEachLog : Event → Bool
  | .log (.pressedEach _ _) => true
  | _ => false

/-- A read of the `_running` flag. -/
def Event.isFlagRead : Event → Bool
  | .flagRead _ _ => true
  | _ => false

/-- All nondeterminism of a run: the `_running` flag read stream, the screen
size per query, the position / duration / count / jitter random draws (one
per move index where applicable) and the success outcomes of the actuation
calls. -/
structure Oracle where
  flag : ℕ → Bool
  size : ℕ → ℤ × ℤ
  rx : ℕ → ℤ → ℤ → ℤ
  ry : ℕ → ℤ → ℤ → ℤ
  rdur : ℕ → ℚ → ℚ → ℚ
  moveOk : ℕ → Bool
  pressOk : ℕ → Bool
  seqPressOk : Bool
  nMoves : ℤ → ℤ → ℤ
  waitU : ℚ → ℚ → ℚ

/-- The parameters of `run_loop` in `main.py`. -/
structure RunConfig where
  base_interval_min : ℚ
  jitter_pct : ℚ
  min_moves : ℤ
  max_moves : ℤ
  per_move_delay : ℚ
  press_each : Bool
  key : String
  dry_run : Bool
deriving DecidableEq

/-- Raw `pyautogui.press`: the call is issued; if the outcome is a failure
the exception channel (second component) carries the error. -/
def pressKeyRaw (key : String) (ok : Bool) : List Event × Option String :=
  ([Event.call (ActCall.press key)], if ok then none else some "press failed")

/-- Embeds `safe_press` from `main.py`: try `pyautogui.press(key)`; on exception
log a warning.  The exception channel of the result is always `none`. -/
def safe_press (key : String) (ok : Bool) : List Event × Option String :=
  match pressKeyRaw key ok with
  | (evs, none) => (evs, none)
  | (evs, some _) => (evs ++ [Event.log (LogMsg.pressWarn key)], none)

/-- Polling granularity of the inter-move delay loop: `time.sleep(0.05)`. -/
def ACTION_TICK : ℚ := 1/20

/-- Polling granularity of the inter-cycle wait loop: `time.sleep(0.2)`. -/
def CYCLE_TICK : ℚ := 1/5

/-- Fuel sufficient for the polling sleep loops (the Python loops terminate
because elapsed time grows by one tick per iteration). -/
def sleepFuel (left tick : ℚ) : ℕ :=
  (⌈left / tick⌉).toNat + 1

/-- The polling sleep pattern of `run_loop`
(`while _running and (time.time() - start) < left: time.sleep(tick)`).
Returns the trace of flag reads, the next unread flag index, and the number
of tick-sleeps performed.  The flag is read first (Python `and`
short-circuits), then the elapsed time is compared. -/
def sleep_run (flag : ℕ → Bool) (s : ℕ) (fuel : ℕ) (elapsed left tick : ℚ) :
    List Event × ℕ × ℕ :=
  match fuel with
  | 0 => ([], s, 0)
  | fuel0 + 1 =>
    if flag s then
      if elapsed < left then
        let r := sleep_run flag (s+1) fuel0 (elapsed + tick) left tick
        (Event.flagRead s true :: r.1, r.2.1, r.2.2 + 1)
      else ([Event.flagRead s true], s + 1, 0)
    else ([Event.flagRead s false], s + 1, 0)

/-- The position chosen for move `i`: `random_position()` in the loop body
(the `screenSize` call it performs is recorded by `move_step`). -/
def move_pos (o : Oracle) (i : ℕ) : ℤ × ℤ :=
  random_position (o.size i) (o.rx i) (o.ry i) MARGIN

/-- The animation duration for move `i`:
`random.uniform(*MOVE_DURATION_RANGE)`. -/
def move_dur (o : Oracle) (i : ℕ) : ℚ :=
  o.rdur i MOVE_DURATION_LO MOVE_DURATION_HI

/-- The move part of loop iteration `i`: dry-run log only, or a `moveTo`
call followed by the success log, or the call and the failure warning. -/
def move_evs (cfg : RunConfig) (o : Oracle) (i : ℕ) : List Event :=
  if cfg.dry_run then
    [Event.log (LogMsg.dryMove (i+1) (move_pos o i).1 (move_pos o i).2 (move_dur o i))]
  else if o.moveOk i then
    [Event.call (ActCall.moveTo (move_pos o i).1 (move_pos o i).2 (move_dur o i)),
     Event.log (LogMsg.moved (i+1) (move_pos o i).1 (move_pos o i).2 (move_dur o i))]
  else
    [Event.call (ActCall.moveTo (move_pos o i).1 (move_pos o i).2 (move_dur o i)),
     Event.log LogMsg.moveWarn]

/-- The per-move press part of loop iteration `i` (`if press_each: ...`).
In non-dry mode the `Pressed` log line follows `safe_press`
unconditionally. -/
def press_each_evs (cfg : RunConfig) (o : Oracle) (i : ℕ) : List Event :=
  if cfg.press_each then
    if cfg.dry_run then [Event.log (LogMsg.dryPressEach cfg.key (i+1))]
    else (safe_press cfg.key (o.pressOk i)).1 ++ [Event.log (LogMsg.pressedEach cfg.key (i+1))]
  else []

/-- The inter-move delay (`if i < moves_count - 1: ...` polling sleep). -/
def inter_move_wait (cfg : RunConfig) (o : Oracle) (i : ℕ) (n : ℤ) (s : ℕ) :
    List Event × ℕ :=
  if (i : ℤ) + 1 < n then
    let r := sleep_run o.flag s (sleepFuel cfg.per_move_delay ACTION_TICK) 0
      cfg.per_move_delay ACTION_TICK
    (r.1, r.2.1)
  else ([], s)

/-- One iteration of `for i in range(moves_count)`: `random_position()`
(which issues the `screenSize` query), the move, the optional per-move
press, the optional inter-move delay. -/
def move_step (cfg : RunConfig) (o : Oracle) (i : ℕ) (n : ℤ) (s : ℕ) :
    List Event × ℕ :=
  (Event.call ActCall.screenSize ::
     move_evs cfg o i ++ press_each_evs cfg o i ++ (inter_move_wait cfg o i n s).1,
   (inter_move_wait cfg o i n s).2)

/-- The whole `for i in range(moves_count)` loop, `remaining` iterations
left, current index `i`, flag read index `s` threaded through. -/
def moves_loop (cfg : RunConfig) (o : Oracle) (n : ℤ) (i : ℕ) (remaining : ℕ)
    (s : ℕ) : List Event × ℕ :=
  match remaining with
  | 0 => ([], s)
  | r + 1 =>
    let a := move_step cfg o i n s
    let b := moves_loop cfg o n (i+1) r a.2
    (a.1 ++ b.1, b.2)

/-- The once-per-cycle press (`if not press_each: ...`).  In non-dry mode
the `Pressed` log line follows `safe_press` unconditionally. -/
def seq_press_evs (cfg : RunConfig) (o : Oracle) : List Event :=
  if cfg.press_each then []
  else if cfg.dry_run then [Event.log (LogMsg.dryPressSeq cfg.key)]
  else (safe_press cfg.key o.seqPressOk).1 ++ [Event.log (LogMsg.pressedSeq cfg.key)]

/-- The moves count drawn for a cycle. -/
def cycle_n (cfg : RunConfig) (o : Oracle) : ℤ :=
  choose_moves_count o.nMoves cfg.min_moves cfg.max_moves

/-- The next-cycle wait computed for a cycle. -/
def cycle_wait (cfg : RunConfig) (o : Oracle) : ℚ :=
  compute_next_wait_seconds o.waitU cfg.base_interval_min cfg.jitter_pct

/-- One iteration of the outer `while _running` body: choose the count, log
the cycle start, run the moves loop, the sequence press, compute and log the
next wait, then the polling inter-cycle sleep. -/
def cycle (cfg : RunConfig) (o : Oracle) (s : ℕ) : List Event × ℕ :=
  let n := cycle_n cfg o
  let m := moves_loop cfg o n 0 n.toNat s
  let wait := cycle_wait cfg o
  let z := sleep_run o.flag m.2 (sleepFuel wait CYCLE_TICK) 0 wait CYCLE_TICK
  (Event.log (LogMsg.cycleStart n) :: m.1 ++ seq_press_evs cfg o ++
     Event.log (LogMsg.nextWait wait) :: z.1,
   z.2.1)

/-- The outer `while _running:` loop, `fuel` bounding the number of cycles
observed.  Each test of the `while` condition consumes one flag read. -/
def loop_iter (cfg : RunConfig) (o : Oracle) (fuel : ℕ) (s : ℕ) :
    List Event × ℕ :=
  match fuel with
  | 0 => ([], s)
  | f + 1 =>
    if o.flag s then
      let c := cycle cfg o (s+1)
      let r := loop_iter cfg o f c.2
      (Event.flagRead s true :: c.1 ++ r.1, r.2)
    else ([Event.flagRead s false], s + 1)

/-- Embeds `run_loop` from `main.py`: the STARTING log, the while loop, and the
`finally` exit log. -/
def run_loop (cfg : RunConfig) (o : Oracle) (fuel : ℕ) : List Event :=
  Event.log LogMsg.starting :: (loop_iter cfg o fuel 0).1 ++ [Event.log LogMsg.exited]

/-- The parsed command-line arguments (`argparse` result): `None` when a
flag was omitted; `store_true` flags default to `False`. -/
structure Args where
  minutes : Option ℚ
  jitter : Option ℚ
  min_moves : Option ℤ
  max_moves : Option ℤ
  between : Option ℚ
  press_each : Bool
  press_once : Bool
  key : Option String
  dry_run : Bool

/-- Embeds `main` from `main.py`: compute the effective configuration from the
arguments and the module defaults, validate it (exiting with status 1 and
the specific error message on the first violated constraint), then run the
loop.  Result: (exit status, event trace). -/
def main_run (args : Args) (o : Oracle) (fuel : ℕ) : ℕ × List Event :=
  let base_interval := args.minutes.getD INTERVAL_MIN
  let jitter := args.jitter.getD JITTER
  let min_moves := args.min_moves.getD MOVES_MIN
  let max_moves := args.max_moves.getD MOVES_MAX
  let per_move_delay := args.between.getD PER_MOVE_DELAY
  let press_each := effective_press_each args.press_each args.press_once
  let key := args.key.getD KEY
  let dry_run := args.dry_run || DRY_RUN
  if base_interval ≤ 0 then
    (1, [Event.log (LogMsg.fatal "Base interval must be > 0.")])
  else if ¬ (0 ≤ jitter ∧ jitter ≤ 1) then
    (1, [Event.log (LogMsg.fatal "Jitter must be between 0.0 and 1.0.")])
  else if min_moves < 1 ∨ max_moves < min_moves then
    (1, [Event.log (LogMsg.fatal "Invalid move bounds: ensure 1 <= min_moves <= max_moves.")])
  else if per_move_delay < 0 then
    (1, [Event.log (LogMsg.fatal "per_move_delay must be >= 0.")])
  else
    (0, run_loop
      (RunConfig.mk base_interval jitter min_moves max_moves per_move_delay
        press_each key dry_run) o fuel)

/-- The flag-independent part of one move iteration: everything `move_step`
emits except the sleep-poll flag reads. -/
def move_step_core (cfg : RunConfig) (o : Oracle) (i : ℕ) : List Event :=
  Event.call ActCall.screenSize :: move_evs cfg o i ++ press_each_evs cfg o i

/-- The flag-independent part of the moves loop. -/
def moves_core (cfg : RunConfig) (o : Oracle) (i : ℕ) (remaining : ℕ) :
    List Event :=
  match remaining with
  | 0 => []
  | r + 1 => move_step_core cfg o i ++ moves_core cfg o (i+1) r

/-- A draw oracle returning the lower end of the range. -/
def rint0 : ℤ → ℤ → ℤ := fun a _ => a

/-- A rational draw oracle returning the lower end of the range. -/
def runi0 : ℚ → ℚ → ℚ := fun a _ => a

/-- A flag stream that is already false (shutdown already requested). -/
def flagOff : ℕ → Bool := fun _ => false

/-- A flag stream whose first two reads are true and all later ones false. -/
def flagTwo : ℕ → Bool := fun i => decide (i < 2)

/-- A flag stream that is true only on its very first read. -/
def flagOnce : ℕ → Bool := fun i => decide (i = 0)

/-- A benign concrete oracle on a 100 x 100 screen, every actuation
succeeding, used to instantiate universally quantified theorems. -/
def oW : Oracle :=
  Oracle.mk flagOff (fun _ => (100, 100)) (fun _ => rint0) (fun _ => rint0)
    (fun _ => runi0) (fun _ => true) (fun _ => true) true rint0 runi0

/-- A concrete oracle whose once-per-cycle press fails, with one full cycle
observed (the flag is true only at the top-of-loop read). -/
def oFailPress : Oracle :=
  Oracle.mk flagOnce (fun _ => (100, 100)) (fun _ => rint0) (fun _ => rint0)
    (fun _ => runi0) (fun _ => true) (fun _ => false) false rint0 runi0

/-- Concrete dry-run configuration: base 3 min, no jitter, exactly one move
per cycle, press once. -/
def cfgDry : RunConfig := RunConfig.mk 3 0 1 1 1 false "shift" true

/-- Concrete oracle for one observed dry-run cycle. -/
def oDry : Oracle :=
  Oracle.mk flagOnce (fun _ => (100, 100)) (fun _ => rint0) (fun _ => rint0)
    (fun _ => runi0) (fun _ => true) (fun _ => true) true rint0 runi0

/-- Concrete non-dry configuration: no jitter, exactly two moves per cycle,
one second between moves, press once. -/
def cfgMid : RunConfig := RunConfig.mk 3 0 2 2 1 false "shift" false

/-- Concrete oracle where shutdown is requested during the first inter-move
delay: the top-of-loop read is true and every later read is false. -/
def oMid : Oracle :=
  Oracle.mk flagOnce (fun _ => (100, 100)) (fun _ => rint0) (fun _ => rint0)
    (fun _ => runi0) (fun _ => true) (fun _ => true) true rint0 runi0

/-- Concrete non-dry press-once configuration for the unconditional-success
log theorem. -/
def cfgPressOnce : RunConfig := RunConfig.mk 3 0 1 1 1 false "shift" false

/-- Concrete non-dry press-each configuration. -/
def cfgPressEach : RunConfig := RunConfig.mk 3 0 1 1 1 true "shift" false

/-- Arguments for the invalid-bounds scenario `min=3, max=1` (everything
else omitted). -/
def argsBad : Args :=
  Args.mk none none (some 3) (some 1) none false false none false

end Spam

namespace Spam

theorem rint0_spec : ∀ a b : ℤ, a ≤ b → a ≤ rint0 a b ∧ rint0 a b ≤ b :=
  fun _ _ h => ⟨le_rfl, h⟩

theorem runi0_spec : ∀ a b : ℚ, a ≤ b → a ≤ runi0 a b ∧ runi0 a b ≤ b :=
  fun _ _ h => ⟨le_rfl, h⟩

/-- The polling sleep emits only flag reads: any predicate false on flag
reads counts zero there. -/
theorem sleep_run_countP (p : Event → Bool)
    (hp : ∀ i b, p (Event.flagRead i b) = false) :
    ∀ (flag : ℕ → Bool) (fuel s : ℕ) (elapsed left tick : ℚ),
      ((sleep_run flag s fuel elapsed left tick).1.countP p) = 0 := by
  intro flag fuel
  induction fuel with
  | zero => intro s e l t; simp [sleep_run]
  | succ f ih =>
    intro s e l t
    unfold sleep_run
    by_cases h1 : flag s = true
    · by_cases h2 : e < l
      · simp [h1, h2, List.countP_cons, hp, ih (s+1)]
      · simp [h1, h2, List.countP_cons, hp]
    · simp [h1, List.countP_cons, hp]

/-- Every event a polling sleep emits is a flag read. -/
theorem sleep_run_mem (flag : ℕ → Bool) :
    ∀ (fuel s : ℕ) (elapsed left tick : ℚ),
      ∀ ev ∈ (sleep_run flag s fuel elapsed left tick).1, ev.isFlagRead = true := by
  intro fuel
  induction fuel with
  | zero => intro s e l t ev hev; simp [sleep_run] at hev
  | succ f ih =>
    intro s e l t ev hev
    unfold sleep_run at hev
    by_cases h1 : flag s = true
    · by_cases h2 : e < l
      · simp only [h1, h2, if_true, List.mem_cons] at hev
        rcases hev with h | h
        · subst h; rfl
        · exact ih (s+1) (e+t) l t ev h
      · simp [h1, h2] at hev; subst hev; rfl
    · simp [h1] at hev; subst hev; rfl

/-- The polling sleep trace filtered to non-flag-read events is empty. -/
theorem sleep_run_filter (flag : ℕ → Bool) (fuel s : ℕ) (elapsed left tick : ℚ) :
    ((sleep_run flag s fuel elapsed left tick).1.filter
      (fun ev => !ev.isFlagRead)) = [] := by
  refine List.filter_eq_nil_iff.mpr ?_
  intro a ha
  simp [sleep_run_mem flag fuel s elapsed left tick a ha]

/-- The polling sleep performs at most `k` tick-sleeps when the `k`-th flag
read (counting from its starting index) returns false: the flag is checked
before every tick. -/
theorem sleep_run_ticks_le (flag : ℕ → Bool) :
    ∀ (fuel s k : ℕ) (elapsed left tick : ℚ), flag (s + k) = false →
      (sleep_run flag s fuel elapsed left tick).2.2 ≤ k := by
  intro fuel
  induction fuel with
  | zero => intro s k e l t hk; simp [sleep_run]
  | succ f ih =>
    intro s k e l t hk
    unfold sleep_run
    by_cases h1 : flag s = true
    · by_cases h2 : e < l
      · simp only [h1, h2, if_true]
        cases k with
        | zero =>
          rw [Nat.add_zero] at hk
          rw [hk] at h1
          cases h1
        | succ k0 =>
          have hk0 : flag ((s+1) + k0) = false := by
            have he : (s+1) + k0 = s + (k0+1) := by omega
            rw [he]; exact hk
          have := ih (s+1) k0 (e+t) l t hk0
          simpa using Nat.succ_le_succ this
      · simp [h1, h2]
    · simp [h1]

/-- The inter-move delay emits only flag reads. -/
theorem inter_move_wait_countP (p : Event → Bool)
    (hp : ∀ i b, p (Event.flagRead i b) = false)
    (cfg : RunConfig) (o : Oracle) (i : ℕ) (n : ℤ) (s : ℕ) :
    ((inter_move_wait cfg o i n s).1.countP p) = 0 := by
  unfold inter_move_wait
  split
  · exact sleep_run_countP p hp o.flag _ s 0 cfg.per_move_delay ACTION_TICK
  · simp

/-- Generic count of one move iteration: the `screenSize` query plus the
move part plus the per-move press part (the delay contributes nothing for a
predicate false on flag reads). -/
theorem move_step_countP (p : Event → Bool)
    (hp : ∀ i b, p (Event.flagRead i b) = false)
    (cfg : RunConfig) (o : Oracle) (i : ℕ) (n : ℤ) (s : ℕ) :
    ((move_step cfg o i n s).1.countP p) =
      ((if p (Event.call ActCall.screenSize) then 1 else 0) +
        ((move_evs cfg o i).countP p + (press_each_evs cfg o i).countP p)) := by
  unfold move_step
  simp only [List.countP_cons, List.countP_append,
    inter_move_wait_countP p hp cfg o i n s]
  by_cases hscr : p (Event.call ActCall.screenSize) = true
  · simp [hscr]; omega
  · simp [hscr]

/-- Count over the whole moves loop when each iteration counts `c`. -/
theorem moves_loop_countP (p : Event → Bool) (cfg : RunConfig) (o : Oracle)
    (n : ℤ) (c : ℕ)
    (h : ∀ i s0, ((move_step cfg o i n s0).1.countP p) = c) :
    ∀ (r i s0 : ℕ), ((moves_loop cfg o n i r s0).1.countP p) = r * c := by
  intro r
  induction r with
  | zero => intro i s0; simp [moves_loop]
  | succ r0 ih =>
    intro i s0
    simp only [moves_loop, List.countP_append, h, ih]
    ring

/-- Generic count over one cycle: the per-iteration count times the drawn
moves count, plus the once-per-cycle press part. -/
theorem cycle_countP (p : Event → Bool)
    (hp : ∀ i b, p (Event.flagRead i b) = false)
    (hcs : ∀ n0, p (Event.log (LogMsg.cycleStart n0)) = false)
    (hnw : ∀ q, p (Event.log (LogMsg.nextWait q)) = false)
    (cfg : RunConfig) (o : Oracle) (s : ℕ) (c : ℕ)
    (hm : ∀ i s0, ((move_step cfg o i (cycle_n cfg o) s0).1.countP p) = c) :
    ((cycle cfg o s).1.countP p) =
      (cycle_n cfg o).toNat * c + (seq_press_evs cfg o).countP p := by
  unfold cycle
  simp only [List.countP_cons, List.countP_append, hcs, hnw,
    moves_loop_countP p cfg o (cycle_n cfg o) c hm,
    sleep_run_countP p hp]
  simp

/-- If every cycle counts zero for a predicate false on flag reads, so does
the whole while loop. -/
theorem loop_iter_countP_zero (p : Event → Bool)
    (hp : ∀ i b, p (Event.flagRead i b) = false)
    (cfg : RunConfig) (o : Oracle)
    (hc : ∀ s0, ((cycle cfg o s0).1.countP p) = 0) :
    ∀ (fuel s : ℕ), ((loop_iter cfg o fuel s).1.countP p) = 0 := by
  intro fuel
  induction fuel with
  | zero => intro s; simp [loop_iter]
  | succ f ih =>
    intro s
    unfold loop_iter
    by_cases h1 : o.flag s = true
    · simp [h1, List.countP_cons, List.countP_append, hp, hc, ih]
    · simp [h1, List.countP_cons, hp]

/-- The function `safe_press` emits the press call and, on failure, the warning log. -/
theorem safe_press_evs (key : String) (ok : Bool) :
    (safe_press key ok).1 = Event.call (ActCall.press key) ::
      (if ok then [] else [Event.log (LogMsg.pressWarn key)]) := by
  cases ok <;> rfl

/-- The function `safe_press` never propagates an exception: the exception channel of
its result is always empty. -/
theorem safe_press_exn (key : String) (ok : Bool) :
    (safe_press key ok).2 = none := by
  cases ok <;> rfl

theorem move_evs_press (cfg : RunConfig) (o : Oracle) (i : ℕ) :
    (move_evs cfg o i).countP Event.isPressAction = 0 := by
  cases hd : cfg.dry_run <;> cases hmo : o.moveOk i <;>
    simp [move_evs, hd, hmo, Event.isPressAction, List.countP_cons]

theorem move_evs_move (cfg : RunConfig) (o : Oracle) (i : ℕ) :
    (move_evs cfg o i).countP Event.isMoveAction = 1 := by
  cases hd : cfg.dry_run <;> cases hmo : o.moveOk i <;>
    simp [move_evs, hd, hmo, Event.isMoveAction, List.countP_cons]

theorem move_evs_act_dry (cfg : RunConfig) (o : Oracle) (i : ℕ)
    (hd : cfg.dry_run = true) :
    (move_evs cfg o i).countP Event.isActuation = 0 := by
  simp [move_evs, hd, Event.isActuation]

theorem move_evs_drymove (cfg : RunConfig) (o : Oracle) (i : ℕ)
    (hd : cfg.dry_run = true) :
    (move_evs cfg o i).countP Event.isDryMoveLog = 1 := by
  simp [move_evs, hd, Event.isDryMoveLog, List.countP_cons]

theorem move_evs_drypress (cfg : RunConfig) (o : Oracle) (i : ℕ) :
    (move_evs cfg o i).countP Event.isDryPressLog = 0 := by
  cases hd : cfg.dry_run <;> cases hmo : o.moveOk i <;>
    simp [move_evs, hd, hmo, Event.isDryPressLog, List.countP_cons]

theorem move_evs_seqmark (cfg : RunConfig) (o : Oracle) (i : ℕ) :
    (move_evs cfg o i).countP Event.isSeqPressMark = 0 := by
  cases hd : cfg.dry_run <;> cases hmo : o.moveOk i <;>
    simp [move_evs, hd, hmo, Event.isSeqPressMark, List.countP_cons]

theorem move_evs_pressedseq (cfg : RunConfig) (o : Oracle) (i : ℕ) :
    (move_evs cfg o i).countP Event.isPressedSeqLog = 0 := by
  cases hd : cfg.dry_run <;> cases hmo : o.moveOk i <;>
    simp [move_evs, hd, hmo, Event.isPressedSeqLog, List.countP_cons]

theorem move_evs_pressedeach (cfg : RunConfig) (o : Oracle) (i : ℕ) :
    (move_evs cfg o i).countP Event.isPressedEachLog = 0 := by
  cases hd : cfg.dry_run <;> cases hmo : o.moveOk i <;>
    simp [move_evs, hd, hmo, Event.isPressedEachLog, List.countP_cons]

theorem press_each_evs_off (cfg : RunConfig) (o : Oracle) (i : ℕ)
    (h : cfg.press_each = false) :
    press_each_evs cfg o i = [] := by
  simp [press_each_evs, h]

theorem press_each_evs_press (cfg : RunConfig) (o : Oracle) (i : ℕ)
    (h : cfg.press_each = true) :
    (press_each_evs cfg o i).countP Event.isPressAction = 1 := by
  cases hd : cfg.dry_run <;> cases hok : o.pressOk i <;>
    simp [press_each_evs, h, hd, hok, safe_press_evs, Event.isPressAction,
      List.countP_cons, List.countP_append]

theorem press_each_evs_move (cfg : RunConfig) (o : Oracle) (i : ℕ) :
    (press_each_evs cfg o i).countP Event.isMoveAction = 0 := by
  cases hpe : cfg.press_each <;> cases hd : cfg.dry_run <;>
    cases hok : o.pressOk i <;>
    simp [press_each_evs, hpe, hd, hok, safe_press_evs, Event.isMoveAction,
      List.countP_cons, List.countP_append]

theorem press_each_evs_seqmark (cfg : RunConfig) (o : Oracle) (i : ℕ) :
    (press_each_evs cfg o i).countP Event.isSeqPressMark = 0 := by
  cases hpe : cfg.press_each <;> cases hd : cfg.dry_run <;>
    cases hok : o.pressOk i <;>
    simp [press_each_evs, hpe, hd, hok, safe_press_evs, Event.isSeqPressMark,
      List.countP_cons, List.countP_append]

theorem press_each_evs_act_dry (cfg : RunConfig) (o : Oracle) (i : ℕ)
    (hd : cfg.dry_run = true) :
    (press_each_evs cfg o i).countP Event.isActuation = 0 := by
  cases hpe : cfg.press_each <;>
    simp [press_each_evs, hpe, hd, Event.isActuation, List.countP_cons]

theorem press_each_evs_drymove (cfg : RunConfig) (o : Oracle) (i : ℕ) :
    (press_each_evs cfg o i).countP Event.isDryMoveLog = 0 := by
  cases hpe : cfg.press_each <;> cases hd : cfg.dry_run <;>
    cases hok : o.pressOk i <;>
    simp [press_each_evs, hpe, hd, hok, safe_press_evs, Event.isDryMoveLog,
      List.countP_cons, List.countP_append]

theorem press_each_evs_drypress (cfg : RunConfig) (o : Oracle) (i : ℕ)
    (hd : cfg.dry_run = true) :
    (press_each_evs cfg o i).countP Event.isDryPressLog =
      (if cfg.press_each then 1 else 0) := by
  cases hpe : cfg.press_each <;>
    simp [press_each_evs, hpe, hd, Event.isDryPressLog, List.countP_cons]

theorem press_each_evs_pressedseq (cfg : RunConfig) (o : Oracle) (i : ℕ) :
    (press_each_evs cfg o i).countP Event.isPressedSeqLog = 0 := by
  cases hpe : cfg.press_each <;> cases hd : cfg.dry_run <;>
    cases hok : o.pressOk i <;>
    simp [press_each_evs, hpe, hd, hok, safe_press_evs, Event.isPressedSeqLog,
      List.countP_cons, List.countP_append]

theorem press_each_evs_pressedeach (cfg : RunConfig) (o : Oracle) (i : ℕ)
    (hpe : cfg.press_each = true) (hd : cfg.dry_run = false) :
    (press_each_evs cfg o i).countP Event.isPressedEachLog = 1 := by
  cases hok : o.pressOk i <;>
    simp [press_each_evs, hpe, hd, hok, safe_press_evs, Event.isPressedEachLog,
      List.countP_cons, List.countP_append]

theorem seq_press_evs_on (cfg : RunConfig) (o : Oracle)
    (h : cfg.press_each = true) :
    seq_press_evs cfg o = [] := by
  simp [seq_press_evs, h]

theorem seq_press_evs_press (cfg : RunConfig) (o : Oracle)
    (h : cfg.press_each = false) :
    (seq_press_evs cfg o).countP Event.isPressAction = 1 := by
  cases hd : cfg.dry_run <;> cases hok : o.seqPressOk <;>
    simp [seq_press_evs, h, hd, hok, safe_press_evs, Event.isPressAction,
      List.countP_cons, List.countP_append]

theorem seq_press_evs_move (cfg : RunConfig) (o : Oracle) :
    (seq_press_evs cfg o).countP Event.isMoveAction = 0 := by
  cases hpe : cfg.press_each <;> cases hd : cfg.dry_run <;>
    cases hok : o.seqPressOk <;>
    simp [seq_press_evs, hpe, hd, hok, safe_press_evs, Event.isMoveAction,
      List.countP_cons, List.countP_append]

theorem seq_press_evs_seqmark (cfg : RunConfig) (o : Oracle)
    (h : cfg.press_each = false) :
    (seq_press_evs cfg o).countP Event.isSeqPressMark = 1 := by
  cases hd : cfg.dry_run <;> cases hok : o.seqPressOk <;>
    simp [seq_press_evs, h, hd, hok, safe_press_evs, Event.isSeqPressMark,
      List.countP_cons, List.countP_append]

theorem seq_press_evs_act_dry (cfg : RunConfig) (o : Oracle)
    (hd : cfg.dry_run = true) :
    (seq_press_evs cfg o).countP Event.isActuation = 0 := by
  cases hpe : cfg.press_each <;>
    simp [seq_press_evs, hpe, hd, Event.isActuation, List.countP_cons]

theorem seq_press_evs_drymove (cfg : RunConfig) (o : Oracle) :
    (seq_press_evs cfg o).countP Event.isDryMoveLog = 0 := by
  cases hpe : cfg.press_each <;> cases hd : cfg.dry_run <;>
    cases hok : o.seqPressOk <;>
    simp [seq_press_evs, hpe, hd, hok, safe_press_evs, Event.isDryMoveLog,
      List.countP_cons, List.countP_append]

theorem seq_press_evs_drypress (cfg : RunConfig) (o : Oracle)
    (hd : cfg.dry_run = true) :
    (seq_press_evs cfg o).countP Event.isDryPressLog =
      (if cfg.press_each then 0 else 1) := by
  cases hpe : cfg.press_each <;>
    simp [seq_press_evs, hpe, hd, Event.isDryPressLog, List.countP_cons]

theorem seq_press_evs_pressedseq (cfg : RunConfig) (o : Oracle)
    (h : cfg.press_each = false) (hd : cfg.dry_run = false) :
    (seq_press_evs cfg o).countP Event.isPressedSeqLog = 1 := by
  cases hok : o.seqPressOk <;>
    simp [seq_press_evs, h, hd, hok, safe_press_evs, Event.isPressedSeqLog,
      List.countP_cons, List.countP_append]


theorem move_evs_filter (cfg : RunConfig) (o : Oracle) (i : ℕ) :
    (move_evs cfg o i).filter (fun ev => !ev.isFlagRead) = move_evs cfg o i := by
  cases hd : cfg.dry_run <;> cases hmo : o.moveOk i <;>
    simp [move_evs, hd, hmo, Event.isFlagRead]

theorem press_each_evs_filter (cfg : RunConfig) (o : Oracle) (i : ℕ) :
    (press_each_evs cfg o i).filter (fun ev => !ev.isFlagRead) =
      press_each_evs cfg o i := by
  cases hpe : cfg.press_each <;> cases hd : cfg.dry_run <;>
    cases hok : o.pressOk i <;>
    simp [press_each_evs, hpe, hd, hok, safe_press_evs, Event.isFlagRead]

theorem seq_press_evs_filter (cfg : RunConfig) (o : Oracle) :
    (seq_press_evs cfg o).filter (fun ev => !ev.isFlagRead) =
      seq_press_evs cfg o := by
  cases hpe : cfg.press_each <;> cases hd : cfg.dry_run <;>
    cases hok : o.seqPressOk <;>
    simp [seq_press_evs, hpe, hd, hok, safe_press_evs, Event.isFlagRead]

theorem inter_move_wait_filter (cfg : RunConfig) (o : Oracle) (i : ℕ) (n : ℤ)
    (s : ℕ) :
    ((inter_move_wait cfg o i n s).1.filter (fun ev => !ev.isFlagRead)) = [] := by
  unfold inter_move_wait
  split
  · exact sleep_run_filter o.flag _ s 0 cfg.per_move_delay ACTION_TICK
  · simp

/-- The non-flag-read events of one move iteration are its core events,
independent of the flag stream and of the read index. -/
theorem move_step_filter (cfg : RunConfig) (o : Oracle) (i : ℕ) (n : ℤ)
    (s : ℕ) :
    ((move_step cfg o i n s).1.filter (fun ev => !ev.isFlagRead)) =
      move_step_core cfg o i := by
  simp only [move_step, move_step_core, List.filter_cons, List.filter_append,
    inter_move_wait_filter, move_evs_filter, press_each_evs_filter,
    List.append_nil]
  simp [Event.isFlagRead]

/-- The non-flag-read events of the moves loop are the core events. -/
theorem moves_loop_filter (cfg : RunConfig) (o : Oracle) (n : ℤ) :
    ∀ (r i s0 : ℕ),
      ((moves_loop cfg o n i r s0).1.filter (fun ev => !ev.isFlagRead)) =
        moves_core cfg o i r := by
  intro r
  induction r with
  | zero => intro i s0; simp [moves_loop, moves_core]
  | succ r0 ih =>
    intro i s0
    simp only [moves_loop, moves_core, List.filter_append, move_step_filter, ih]

/-- The non-flag-read events of one cycle: the cycle-start log, the core
move events, the once-per-cycle press part and the next-wait log — a list
that does not depend on the flag stream or the starting read index, so
every one of these events still occurs however the shutdown flag behaves. -/
theorem cycle_filter (cfg : RunConfig) (o : Oracle) (s : ℕ) :
    ((cycle cfg o s).1.filter (fun ev => !ev.isFlagRead)) =
      Event.log (LogMsg.cycleStart (cycle_n cfg o)) ::
        (moves_core cfg o 0 (cycle_n cfg o).toNat ++ seq_press_evs cfg o ++
          [Event.log (LogMsg.nextWait (cycle_wait cfg o))]) := by
  unfold cycle
  simp only [List.filter_cons, List.filter_append, moves_loop_filter,
    seq_press_evs_filter, sleep_run_filter, List.append_nil]
  simp [Event.isFlagRead]


/-- Claim C1 (code evaluated at the failing input): when both the
press-each and press-once CLI flags are given, line 180 of `main.py`
computes `press_each = True`, i.e. the effective mode is press-each — the
opposite of the precedence stated by the claim and by the program's own
`--press-once` help text ("overrides --press-each"). -/
theorem effective_press_each_both_flags :
    effective_press_each true true = true := rfl

/-- Claim C4: for `1 <= min_moves <= max_moves` and any draw oracle that
respects `randint` bounds, `choose_moves_count` returns a value in
`[min_moves, max_moves]`; when the bounds coincide the result is
`min_moves` whatever the oracle (no draw is consulted). -/
theorem choose_moves_count_range (randint : ℤ → ℤ → ℤ)
    (hr : ∀ a b, a ≤ b → a ≤ randint a b ∧ randint a b ≤ b)
    (min_moves max_moves : ℤ) (h1 : 1 ≤ min_moves)
    (h2 : min_moves ≤ max_moves) :
    (min_moves ≤ choose_moves_count randint min_moves max_moves ∧
       choose_moves_count randint min_moves max_moves ≤ max_moves) ∧
    ∀ r2 : ℤ → ℤ → ℤ, min_moves = max_moves →
      choose_moves_count r2 min_moves max_moves = min_moves := by
  constructor
  · unfold choose_moves_count
    split
    · omega
    · exact hr min_moves max_moves h2
  · intro r2 he
    simp [choose_moves_count, he]

theorem choose_moves_count_range_witness :
    1 ≤ choose_moves_count rint0 1 2 ∧ choose_moves_count rint0 1 2 ≤ 2 :=
  (choose_moves_count_range rint0 rint0_spec 1 2 (by norm_num)
    (by norm_num)).1

/-- Claim C5 (amended): for `base_min > 0`, `jitter` in `[0, 1]` and a
uniform draw oracle respecting its bounds, `compute_next_wait_seconds` is
at least `0.1` and at most `max 0.1 (base_min * 60 * (1 + jitter))`; when
`jitter = 0` it equals `max 0.1 (base_min * 60)` for every draw oracle (no
draw is consulted).  The original claim's `= base_min * 60` holds only when
`base_min * 60` is at least the `0.1` floor. -/
theorem compute_next_wait_bounds (uniform : ℚ → ℚ → ℚ)
    (hu : ∀ a b, a ≤ b → a ≤ uniform a b ∧ uniform a b ≤ b)
    (base_min jitter : ℚ) (hb : 0 < base_min) (hj0 : 0 ≤ jitter)
    (hj1 : jitter ≤ 1) :
    (1/10 ≤ compute_next_wait_seconds uniform base_min jitter ∧
       compute_next_wait_seconds uniform base_min jitter ≤
         max (1/10) (base_min * 60 * (1 + jitter))) ∧
    ∀ u2 : ℚ → ℚ → ℚ,
      compute_next_wait_seconds u2 base_min 0 = max (1/10) (base_min * 60) := by
  constructor
  · refine ⟨le_max_left _ _, ?_⟩
    unfold compute_next_wait_seconds
    by_cases hj : jitter > 0
    · simp only [if_pos hj]
      have h1 : -jitter ≤ jitter := by linarith
      have h2 := hu (-jitter) jitter h1
      refine max_le_max le_rfl ?_
      nlinarith [h2.2]
    · have hj0' : jitter = 0 := le_antisymm (not_lt.mp hj) hj0
      subst hj0'
      norm_num
  · intro u2
    unfold compute_next_wait_seconds
    norm_num

theorem compute_next_wait_bounds_witness :
    1/10 ≤ compute_next_wait_seconds runi0 3 (15/100) ∧
      compute_next_wait_seconds runi0 3 (15/100) ≤
        max (1/10) (3 * 60 * (1 + 15/100)) :=
  (compute_next_wait_bounds runi0 runi0_spec 3 (15/100) (by norm_num)
    (by norm_num) (by norm_num)).1

/-- Claim C5 (counterexample): at `base_min = 1/1000 > 0` and
`jitter = 0`, the code returns the `0.1` floor, not
`base_min * 60 = 0.06`, refuting "when jitter == 0 the result equals
exactly base_min * 60" as stated for all `base_min > 0`. -/
theorem compute_next_wait_small_base_refuted :
    0 < (1/1000 : ℚ) ∧
      compute_next_wait_seconds runi0 (1/1000) 0 = 1/10 ∧
      ¬ ((1/1000 : ℚ) * 60 = 1/10) := by
  refine ⟨by norm_num, ?_, by norm_num⟩
  unfold compute_next_wait_seconds
  norm_num

/-- Claim C6: with draw oracles respecting `randint` bounds,
`random_position` lands in `[margin, max margin (w - margin - 1)]` in x
and likewise in y; the upper end is clamped to at least `margin`, so the
range is never reversed; and when the screen dimension is at least
`2*margin + 1` the upper end is exactly `dimension - margin - 1`. -/
theorem random_position_bounds (size : ℤ × ℤ) (rx ry : ℤ → ℤ → ℤ)
    (hrx : ∀ a b, a ≤ b → a ≤ rx a b ∧ rx a b ≤ b)
    (hry : ∀ a b, a ≤ b → a ≤ ry a b ∧ ry a b ≤ b) (margin : ℤ) :
    (margin ≤ (random_position size rx ry margin).1 ∧
       (random_position size rx ry margin).1 ≤
         max margin (size.1 - margin - 1) ∧
       margin ≤ max margin (size.1 - margin - 1)) ∧
    (margin ≤ (random_position size rx ry margin).2 ∧
       (random_position size rx ry margin).2 ≤
         max margin (size.2 - margin - 1) ∧
       margin ≤ max margin (size.2 - margin - 1)) ∧
    (2 * margin + 1 ≤ size.1 →
       (random_position size rx ry margin).1 ≤ size.1 - margin - 1) ∧
    (2 * margin + 1 ≤ size.2 →
       (random_position size rx ry margin).2 ≤ size.2 - margin - 1) := by
  have hx := hrx margin (max margin (size.1 - margin - 1)) (le_max_left _ _)
  have hy := hry margin (max margin (size.2 - margin - 1)) (le_max_left _ _)
  refine ⟨⟨hx.1, hx.2, le_max_left _ _⟩, ⟨hy.1, hy.2, le_max_left _ _⟩,
    ?_, ?_⟩
  · intro h
    have hm : max margin (size.1 - margin - 1) = size.1 - margin - 1 :=
      max_eq_right (by omega)
    exact le_trans hx.2 (le_of_eq hm)
  · intro h
    have hm : max margin (size.2 - margin - 1) = size.2 - margin - 1 :=
      max_eq_right (by omega)
    exact le_trans hy.2 (le_of_eq hm)

theorem random_position_bounds_witness :
    5 ≤ (random_position (100, 100) rint0 rint0 5).1 ∧
      (random_position (100, 100) rint0 rint0 5).1 ≤ max 5 (100 - 5 - 1) ∧
      (5 : ℤ) ≤ max 5 (100 - 5 - 1) :=
  (random_position_bounds (100, 100) rint0 rint0 rint0_spec rint0_spec 5).1


/-- Claim C2 (amended): with dry-run enabled, `run_loop` never issues a
`moveTo` or `pressKey` actuation call (it does still query the screen size
once per move inside `random_position` — see the counterexample), and each
cycle logs exactly one dry-run line per would-be move and one per would-be
press. -/
theorem dry_run_no_actuation (cfg : RunConfig) (o : Oracle) (fuel s : ℕ)
    (hd : cfg.dry_run = true) :
    ((run_loop cfg o fuel).countP Event.isActuation = 0 ∧
      (loop_iter cfg o fuel s).1.countP Event.isActuation = 0) ∧
    ∀ s0, ((cycle cfg o s0).1.countP Event.isDryMoveLog =
        (cycle_n cfg o).toNat ∧
      (cycle cfg o s0).1.countP Event.isDryPressLog =
        (if cfg.press_each then (cycle_n cfg o).toNat else 1)) := by
  have hpAct : ∀ i b, Event.isActuation (Event.flagRead i b) = false :=
    fun _ _ => rfl
  have hcsAct : ∀ n0, Event.isActuation (Event.log (LogMsg.cycleStart n0)) = false :=
    fun _ => rfl
  have hnwAct : ∀ q, Event.isActuation (Event.log (LogMsg.nextWait q)) = false :=
    fun _ => rfl
  have hmAct : ∀ i s0,
      ((move_step cfg o i (cycle_n cfg o) s0).1.countP Event.isActuation) = 0 := by
    intro i s0
    rw [move_step_countP Event.isActuation hpAct]
    simp [move_evs_act_dry cfg o i hd, press_each_evs_act_dry cfg o i hd,
      Event.isActuation]
  have hcycAct : ∀ s0, ((cycle cfg o s0).1.countP Event.isActuation) = 0 := by
    intro s0
    rw [cycle_countP Event.isActuation hpAct hcsAct hnwAct cfg o s0 0 hmAct]
    simp [seq_press_evs_act_dry cfg o hd]
  have hloop := loop_iter_countP_zero Event.isActuation hpAct cfg o hcycAct
  refine ⟨⟨?_, hloop fuel s⟩, ?_⟩
  · simp [run_loop, List.countP_cons, List.countP_append, hloop,
      Event.isActuation]
  · intro s0
    have hpDM : ∀ i b, Event.isDryMoveLog (Event.flagRead i b) = false :=
      fun _ _ => rfl
    have hcsDM : ∀ n0, Event.isDryMoveLog (Event.log (LogMsg.cycleStart n0)) = false :=
      fun _ => rfl
    have hnwDM : ∀ q, Event.isDryMoveLog (Event.log (LogMsg.nextWait q)) = false :=
      fun _ => rfl
    have hmDM : ∀ i s1,
        ((move_step cfg o i (cycle_n cfg o) s1).1.countP Event.isDryMoveLog) = 1 := by
      intro i s1
      rw [move_step_countP Event.isDryMoveLog hpDM]
      simp [move_evs_drymove cfg o i hd, press_each_evs_drymove,
        Event.isDryMoveLog]
    have hpDP : ∀ i b, Event.isDryPressLog (Event.flagRead i b) = false :=
      fun _ _ => rfl
    have hcsDP : ∀ n0, Event.isDryPressLog (Event.log (LogMsg.cycleStart n0)) = false :=
      fun _ => rfl
    have hnwDP : ∀ q, Event.isDryPressLog (Event.log (LogMsg.nextWait q)) = false :=
      fun _ => rfl
    have hmDP : ∀ i s1,
        ((move_step cfg o i (cycle_n cfg o) s1).1.countP Event.isDryPressLog) =
          (if cfg.press_each then 1 else 0) := by
      intro i s1
      rw [move_step_countP Event.isDryPressLog hpDP]
      simp [move_evs_drypress, press_each_evs_drypress cfg o i hd,
        Event.isDryPressLog]
    constructor
    · rw [cycle_countP Event.isDryMoveLog hpDM hcsDM hnwDM cfg o s0 1 hmDM]
      simp [seq_press_evs_drymove]
    · rw [cycle_countP Event.isDryPressLog hpDP hcsDP hnwDP cfg o s0
        (if cfg.press_each then 1 else 0) hmDP]
      rw [seq_press_evs_drypress cfg o hd]
      cases hpe : cfg.press_each <;> simp [hpe]

theorem dry_run_no_actuation_witness :
    (run_loop cfgDry oDry 2).countP Event.isActuation = 0 ∧
      (loop_iter cfgDry oDry 2 0).1.countP Event.isActuation = 0 :=
  (dry_run_no_actuation cfgDry oDry 2 0 rfl).1

/-- Claim C2 (counterexample): in a dry-run configuration the loop does
issue a `screenSize` actuator query (inside `random_position`), so "never
issues any call to the Actuator collaborator (neither screenSize, ...)" is
false as stated. -/
theorem dry_run_screen_query_refuted :
    cfgDry.dry_run = true ∧
      0 < ((loop_iter cfgDry oDry 1 0).1.countP Event.isScreenQuery) := by
  exact ⟨rfl, by decide⟩

/-- Claim C3 (amended): when the ShutdownFlag becomes false (shutdown
requested), `run_loop` abandons only the remainder of its polling sleeps —
a sleep performs at most `k` ticks when the `k`-th read from its start is
false, and the loop does not start a new cycle once a top-of-loop read is
false — but the non-sleep events of the current cycle (all moves, the
press, the next-wait computation) are a fixed list independent of the flag
stream, so the remainder of the cycle still executes after the flag flips. -/
theorem shutdown_handling (cfg : RunConfig) (o : Oracle) (s fuel k f2 : ℕ)
    (e l t : ℚ) :
    (o.flag s = false →
      loop_iter cfg o (fuel + 1) s = ([Event.flagRead s false], s + 1)) ∧
    (o.flag (s + k) = false → (sleep_run o.flag s f2 e l t).2.2 ≤ k) ∧
    ((cycle cfg o s).1.filter (fun ev => !ev.isFlagRead) =
      Event.log (LogMsg.cycleStart (cycle_n cfg o)) ::
        (moves_core cfg o 0 (cycle_n cfg o).toNat ++ seq_press_evs cfg o ++
          [Event.log (LogMsg.nextWait (cycle_wait cfg o))])) := by
  refine ⟨?_, ?_, cycle_filter cfg o s⟩
  · intro hf
    unfold loop_iter
    simp [hf]
  · intro hf
    exact sleep_run_ticks_le o.flag f2 s k e l t hf

theorem shutdown_handling_witness :
    loop_iter cfgPressOnce oW 1 0 = ([Event.flagRead 0 false], 1) :=
  (shutdown_handling cfgPressOnce oW 0 0 0 0 0 0 0).1 rfl

/-- Claim C3 (counterexample): with two moves per cycle and the flag
becoming false from read index 1 on (i.e. during the first inter-move
delay), the trace records the false read at position 5 and still contains
a later pointer move and a later key press, so "no further actions of that
cycle are performed after the current step" is false as stated. -/
theorem shutdown_midcycle_refuted :
    (loop_iter cfgMid oMid 1 0).1.get? 5 = some (Event.flagRead 1 false) ∧
      0 < ((loop_iter cfgMid oMid 1 0).1.drop 6).countP Event.isMoveAction ∧
      0 < ((loop_iter cfgMid oMid 1 0).1.drop 6).countP Event.isPressAction := by
  exact ⟨by decide, by decide, by decide⟩

/-- Claim C7: in press-once mode each cycle contains exactly one key press
(real or dry-logged) and it occurs after all moves (the cycle trace splits
as `A ++ B` with every press in `B`, no move in `B`, exactly one press);
in press-each mode no once-per-cycle press occurs, the cycle contains one
press per move, and each move iteration splits as move, then press, then
wait. -/
theorem press_mode_behavior (cfg : RunConfig) (o : Oracle) (s : ℕ) :
    (cfg.press_each = false →
      ∃ A B, (cycle cfg o s).1 = A ++ B ∧
        A.countP Event.isPressAction = 0 ∧
        B.countP Event.isPressAction = 1 ∧
        B.countP Event.isMoveAction = 0) ∧
    (cfg.press_each = true →
      ((cycle cfg o s).1.countP Event.isSeqPressMark = 0 ∧
        (cycle cfg o s).1.countP Event.isPressAction = (cycle_n cfg o).toNat) ∧
      ∀ i n s0, ∃ M P W, (move_step cfg o i n s0).1 = M ++ P ++ W ∧
        M.countP Event.isPressAction = 0 ∧ M.countP Event.isMoveAction = 1 ∧
        P.countP Event.isPressAction = 1 ∧ P.countP Event.isMoveAction = 0 ∧
        W.countP Event.isPressAction = 0 ∧ W.countP Event.isMoveAction = 0) := by
  have hpPA : ∀ i b, Event.isPressAction (Event.flagRead i b) = false :=
    fun _ _ => rfl
  have hpMA : ∀ i b, Event.isMoveAction (Event.flagRead i b) = false :=
    fun _ _ => rfl
  constructor
  · intro hpe
    refine ⟨Event.log (LogMsg.cycleStart (cycle_n cfg o)) ::
        (moves_loop cfg o (cycle_n cfg o) 0 (cycle_n cfg o).toNat s).1,
      seq_press_evs cfg o ++
        Event.log (LogMsg.nextWait (cycle_wait cfg o)) ::
          (sleep_run o.flag
            (moves_loop cfg o (cycle_n cfg o) 0 (cycle_n cfg o).toNat s).2
            (sleepFuel (cycle_wait cfg o) CYCLE_TICK) 0 (cycle_wait cfg o)
            CYCLE_TICK).1, ?_, ?_, ?_, ?_⟩
    · simp [cycle]
    · have hmPA : ∀ i s0,
          ((move_step cfg o i (cycle_n cfg o) s0).1.countP Event.isPressAction) = 0 := by
        intro i s0
        rw [move_step_countP Event.isPressAction hpPA]
        simp [move_evs_press, press_each_evs_off cfg o i hpe,
          Event.isPressAction]
      simp [List.countP_cons, Event.isPressAction,
        moves_loop_countP Event.isPressAction cfg o (cycle_n cfg o) 0 hmPA]
    · simp [List.countP_cons, List.countP_append,
        seq_press_evs_press cfg o hpe,
        sleep_run_countP Event.isPressAction hpPA, Event.isPressAction]
    · simp [List.countP_cons, List.countP_append, seq_press_evs_move cfg o,
        sleep_run_countP Event.isMoveAction hpMA, Event.isMoveAction]
  · intro hpe
    constructor
    · constructor
      · have hpSM : ∀ i b, Event.isSeqPressMark (Event.flagRead i b) = false :=
          fun _ _ => rfl
        have hmSM : ∀ i s0,
            ((move_step cfg o i (cycle_n cfg o) s0).1.countP Event.isSeqPressMark) = 0 := by
          intro i s0
          rw [move_step_countP Event.isSeqPressMark hpSM]
          simp [move_evs_seqmark, press_each_evs_seqmark, Event.isSeqPressMark]
        rw [cycle_countP Event.isSeqPressMark hpSM (fun _ => rfl) (fun _ => rfl)
          cfg o s 0 hmSM]
        simp [seq_press_evs_on cfg o hpe]
      · have hmPA : ∀ i s0,
            ((move_step cfg o i (cycle_n cfg o) s0).1.countP Event.isPressAction) = 1 := by
          intro i s0
          rw [move_step_countP Event.isPressAction hpPA]
          simp [move_evs_press, press_each_evs_press cfg o i hpe,
            Event.isPressAction]
        rw [cycle_countP Event.isPressAction hpPA (fun _ => rfl) (fun _ => rfl)
          cfg o s 1 hmPA]
        simp [seq_press_evs_on cfg o hpe]
    · intro i n s0
      refine ⟨Event.call ActCall.screenSize :: move_evs cfg o i,
        press_each_evs cfg o i, (inter_move_wait cfg o i n s0).1,
        ?_, ?_, ?_, ?_, ?_, ?_, ?_⟩
      · simp [move_step]
      · simp [List.countP_cons, move_evs_press, Event.isPressAction]
      · simp [List.countP_cons, move_evs_move, Event.isMoveAction]
      · exact press_each_evs_press cfg o i hpe
      · exact press_each_evs_move cfg o i
      · exact inter_move_wait_countP Event.isPressAction hpPA cfg o i n s0
      · exact inter_move_wait_countP Event.isMoveAction hpMA cfg o i n s0

theorem press_mode_behavior_witness :
    (cycle cfgPressEach oW 0).1.countP Event.isSeqPressMark = 0 ∧
      (cycle cfgPressEach oW 0).1.countP Event.isPressAction =
        (cycle_n cfgPressEach oW).toNat :=
  ((press_mode_behavior cfgPressEach oW 0).2 rfl).1

/-- Claim C8: whenever the effective configuration violates an invariant
(base interval <= 0, jitter outside [0,1], min_moves < 1,
max_moves < min_moves, or delay < 0), `main` exits with status 1, the
trace is exactly one fatal log line naming the violated constraint, and no
actuator call of any kind is issued (`run_loop` is never entered). -/
theorem main_run_validation (args : Args) (o : Oracle) (fuel : ℕ)
    (h : args.minutes.getD INTERVAL_MIN ≤ 0 ∨
      ¬ (0 ≤ args.jitter.getD JITTER ∧ args.jitter.getD JITTER ≤ 1) ∨
      args.min_moves.getD MOVES_MIN < 1 ∨
      args.max_moves.getD MOVES_MAX < args.min_moves.getD MOVES_MIN ∨
      args.between.getD PER_MOVE_DELAY < 0) :
    (main_run args o fuel).1 = 1 ∧
    ((main_run args o fuel).2.countP Event.isActuation = 0 ∧
      (main_run args o fuel).2.countP Event.isScreenQuery = 0) ∧
    ∃ msg, (main_run args o fuel).2 = [Event.log (LogMsg.fatal msg)] := by
  simp only [main_run]
  split_ifs with h1 h2 h3 h4
  · exact ⟨rfl, ⟨rfl, rfl⟩, _, rfl⟩
  · exact ⟨rfl, ⟨rfl, rfl⟩, _, rfl⟩
  · exact ⟨rfl, ⟨rfl, rfl⟩, _, rfl⟩
  · exfalso
    rcases h with h | h | h | h | h
    · exact h1 h
    · exact h h2
    · exact h3 (Or.inl h)
    · exact h3 (Or.inr h)
    · exact h4 h
  · exact ⟨rfl, ⟨rfl, rfl⟩, _, rfl⟩

theorem main_run_validation_witness :
    (main_run argsBad oW 3).1 = 1 :=
  (main_run_validation argsBad oW 3
    (Or.inr (Or.inr (Or.inr (Or.inl (by decide)))))).1

/-- Claim C9: both polling sleeps of `run_loop` are decomposed into
flag-guarded bounded increments — the inter-move delay ticks are
`ACTION_TICK = 0.05 s <= 50 ms` and the inter-cycle wait ticks are
`CYCLE_TICK = 0.2 s <= 200 ms` — and with either tick the sleep performs at
most `k` tick-sleeps when the `k`-th flag read from its start returns
false, so neither wait continues more than one polling tick past the flag
becoming true. -/
theorem sleep_polling_granularity (flag : ℕ → Bool) (s fuel k : ℕ)
    (elapsed left : ℚ) (hk : flag (s + k) = false) :
    (ACTION_TICK ≤ 1/20 ∧ CYCLE_TICK ≤ 1/5) ∧
    (sleep_run flag s fuel elapsed left ACTION_TICK).2.2 ≤ k ∧
    (sleep_run flag s fuel elapsed left CYCLE_TICK).2.2 ≤ k := by
  refine ⟨⟨by norm_num [ACTION_TICK], by norm_num [CYCLE_TICK]⟩, ?_, ?_⟩
  · exact sleep_run_ticks_le flag fuel s k elapsed left ACTION_TICK hk
  · exact sleep_run_ticks_le flag fuel s k elapsed left CYCLE_TICK hk

theorem sleep_polling_granularity_witness :
    (sleep_run flagTwo 0 30 0 1 ACTION_TICK).2.2 ≤ 2 :=
  (sleep_polling_granularity flagTwo 0 30 2 0 1 (by decide)).2.1

/-- Claim C10: `safe_press` never propagates an exception (its exception
channel is empty for every outcome; on failure it emits the press call and
the warning log), and in non-dry mode `run_loop` logs the `Pressed`
success line after every `safe_press` call unconditionally — the count of
`Pressed` logs is 1 per sequence press and 1 per per-move press for every
outcome oracle, including those where the underlying key press failed. -/
theorem safe_press_no_propagation (key : String) (ok : Bool)
    (cfg : RunConfig) (o : Oracle) (s i : ℕ) (n : ℤ) (s0 : ℕ) :
    (safe_press key ok).2 = none ∧
    (safe_press key false).1 =
      [Event.call (ActCall.press key), Event.log (LogMsg.pressWarn key)] ∧
    (cfg.dry_run = false → cfg.press_each = false →
      (cycle cfg o s).1.countP Event.isPressedSeqLog = 1) ∧
    (cfg.dry_run = false → cfg.press_each = true →
      (move_step cfg o i n s0).1.countP Event.isPressedEachLog = 1) := by
  have hpPS : ∀ j b, Event.isPressedSeqLog (Event.flagRead j b) = false :=
    fun _ _ => rfl
  have hpPE : ∀ j b, Event.isPressedEachLog (Event.flagRead j b) = false :=
    fun _ _ => rfl
  refine ⟨safe_press_exn key ok, rfl, ?_, ?_⟩
  · intro hd hpe
    have hmPS : ∀ j s1,
        ((move_step cfg o j (cycle_n cfg o) s1).1.countP Event.isPressedSeqLog) = 0 := by
      intro j s1
      rw [move_step_countP Event.isPressedSeqLog hpPS]
      simp [move_evs_pressedseq, press_each_evs_pressedseq,
        Event.isPressedSeqLog]
    rw [cycle_countP Event.isPressedSeqLog hpPS (fun _ => rfl) (fun _ => rfl)
      cfg o s 0 hmPS]
    simp [seq_press_evs_pressedseq cfg o hpe hd]
  · intro hd hpe
    rw [move_step_countP Event.isPressedEachLog hpPE]
    simp [move_evs_pressedeach, press_each_evs_pressedeach cfg o i hpe hd,
      Event.isPressedEachLog]

theorem safe_press_no_propagation_witness :
    (cycle cfgPressOnce oFailPress 0).1.countP Event.isPressedSeqLog = 1 :=
  ((safe_press_no_propagation "shift" false cfgPressOnce oFailPress
    0 0 0 0).2.2.1 rfl rfl)

end Spam
